import Mathlib

/-!
Shallow embedding of `src/partners.cc` (repository nathangeffen/matchcmp),
an agent-based discrete-time simulation of HIV transmission.

Modelling conventions:
* C++ `double` values that stay finite are modelled as rationals; the
  places where IEEE special values (NaN, infinity) can arise - the
  prevalence division and the derived beta shape parameter `2/m - 2` -
  are modelled with the explicit type `Dbl` below, with IEEE semantics
  for the operations the source performs on them.
* The Mersenne Twister stream is modelled as a sequence of realized
  variates: a function from draw index to a rational, one slot per
  invocation of a distribution on the rng.  Each distribution reads one
  slot and decodes it into its support (the decoders are surjective onto
  the support, so quantifying over all streams covers all realizable
  draw sequences).  Events thread the current slot position explicitly.
* `std::shuffle` is modelled as an arbitrary per-iteration permutation
  of the agent vector, supplied as a parameter; theorems that need it
  assume each supplied shuffle is a permutation.
* `ParameterMap::at` aborts when the key is missing (ConfigurationError,
  fatal before the simulation starts); the map is modelled as a total
  function, i.e. the runs in which all required keys are present.
-/

namespace Matchcmp

/-- The random stream: slot index to realized variate. -/
abbrev Rnd := ℕ → ℚ

/-- The configuration map of `partners.cc` (`ParameterMap`), restricted to
the runs in which every required key is present. -/
abbrev ParameterMap := String → ℚ

/-- `enum Sex` of partners.cc. -/
inductive Sex where
  | MALE : Sex
  | FEMALE : Sex
deriving DecidableEq

/-- A C++ `double` at the program points where IEEE special values can
arise: NaN, the two infinities, or a finite value (kept exact as ℚ). -/
inductive Dbl where
  | nan : Dbl
  | inf : Dbl
  | neginf : Dbl
  | val : ℚ → Dbl
deriving DecidableEq

/-- IEEE division of two finite doubles: x/0 is NaN when x = 0, and a
signed infinity otherwise; a nonzero divisor gives the exact quotient. -/
def ddiv (a b : ℚ) : Dbl :=
  if b = 0 then
    if a = 0 then Dbl.nan else if 0 < a then Dbl.inf else Dbl.neginf
  else Dbl.val (a / b)

/-- IEEE subtraction of a finite double from a `Dbl` (used for the shape
parameter 2/m - 2): specials absorb, finite values subtract exactly. -/
def dsub (x : Dbl) (r : ℚ) : Dbl :=
  match x with
  | Dbl.val q => Dbl.val (q - r)
  | x => x

/-- IEEE doubling of a `Dbl` (used for the shape parameter m/t * 2). -/
def dmul2 : Dbl → Dbl
  | Dbl.val q => Dbl.val (q * 2)
  | x => x

/-- IEEE product of a finite double with a `Dbl`: NaN absorbs, 0 times an
infinity is NaN, and a nonzero finite factor keeps the sign. -/
def qmulD (q : ℚ) : Dbl → Dbl
  | Dbl.nan => Dbl.nan
  | Dbl.inf => if 0 < q then Dbl.inf else if q < 0 then Dbl.neginf else Dbl.nan
  | Dbl.neginf => if 0 < q then Dbl.neginf else if q < 0 then Dbl.inf else Dbl.nan
  | Dbl.val p => Dbl.val (q * p)

/-- IEEE comparison of a finite double with a `Dbl`: every comparison with
NaN is false, u < +inf is true, u < -inf is false. -/
def ltD (u : ℚ) : Dbl → Bool
  | Dbl.nan => false
  | Dbl.inf => true
  | Dbl.neginf => false
  | Dbl.val q => decide (u < q)

/-- Clamp a rational to the unit interval. -/
def clamp01 (u : ℚ) : ℚ := max 0 (min u 1)

/-- Modelled from the spec: `sim::beta_distribution` from `stats.hh`, a
file of this repository that is not under src/.  The spec fixes only its
statistical contract: draws lie in [0,1] for valid positive shape
parameters, and the derived second shape (2/m - 2, respectively d/t * 2)
makes the distribution mean equal the configured target m.  A target mean
of 0 makes the second shape +infinity and the distribution on [0,1]
degenerate at 0, so the draw is 0.  For any finite shape the support is
all of [0,1]; the draw is modelled as the stream slot clamped to [0,1],
so that quantifying over streams ranges over the whole support. -/
def betaVariate (bShape : Dbl) (u : ℚ) : ℚ :=
  match bShape with
  | Dbl.inf => 0
  | _ => clamp01 u

/-- Decoder for a nonnegative-integer-valued draw (std::geometric_distribution):
the stream slot is decoded into a natural number; every natural is realized
by some slot value. -/
def natDecode (q : ℚ) : ℕ := q.floor.toNat

/-- `struct Agent` of partners.cc.  `partners` holds agent ids (the source
stores pointers into the centrally owned vector; no modelled event touches
the list, which starts empty). -/
structure Agent where
  id : ℕ
  sex : Sex
  age : ℚ
  hiv : ℕ
  alive : Bool
  partners : List ℕ
  relationship_stickiness_attribute : ℚ
  partner_forming_attribute : ℚ
  concurrency_attribute : ℚ
  sexual_drive_attribute : ℚ
  preference_fifs_attribute : ℚ
  force_infection_attribute : ℚ
deriving DecidableEq

/-- `Agent::init` of partners.cc.  Draw order (one stream slot each):
bernoulli(0.5) for sex, uniform(15,20) for age, geometric(0.9) clamped at
5 for hiv, then the beta draws for stickiness, partner forming,
concurrency, sexual drive, fifs preference, and (one draw, selected by
sex) force of infection.  Returns the agent and the next stream position. -/
def Agent.init (i : ℕ) (parameters : ParameterMap) (s : Rnd) (pos : ℕ) :
    Agent × ℕ :=
  let sexv := if s pos < 1/2 then Sex.MALE else Sex.FEMALE
  let agev := 15 + 5 * clamp01 (s (pos + 1))
  let hivv := min (natDecode (s (pos + 2))) 5
  let stick := betaVariate
    (dmul2 (ddiv (parameters "MEAN_PARTNERSHIP_TIME") (parameters "TIME_STEP")))
    (s (pos + 3))
  let pform := betaVariate
    (dmul2 (ddiv (parameters "MEAN_TIME_UNTIL_PARTNER") (parameters "TIME_STEP")))
    (s (pos + 4))
  let conc := betaVariate
    (dmul2 (ddiv (parameters "MEAN_TIME_CONCURRENT") (parameters "TIME_STEP")))
    (s (pos + 5))
  let drive := betaVariate
    (dmul2 (ddiv (parameters "MEAN_TIME_SEX") (parameters "TIME_STEP")))
    (s (pos + 6))
  let fifs := betaVariate
    (dsub (ddiv 2 (parameters "PREFERENCE_FIFS")) 2) (s (pos + 7))
  let force :=
    if sexv = Sex.MALE then
      betaVariate (dsub (ddiv 2 (parameters "MEAN_RISK_HET_MALE_SEX")) 2)
        (s (pos + 8))
    else
      betaVariate (dsub (ddiv 2 (parameters "MEAN_RISK_HET_FEMALE_SEX")) 2)
        (s (pos + 8))
  ({ id := i, sex := sexv, age := agev, hiv := hivv, alive := true,
     partners := [],
     relationship_stickiness_attribute := stick,
     partner_forming_attribute := pform,
     concurrency_attribute := conc,
     sexual_drive_attribute := drive,
     preference_fifs_attribute := fifs,
     force_infection_attribute := force }, pos + 9)

/-- The loop body of `initialize_agents`: build `n` agents with ids
starting at `i`, threading the stream position. -/
def init_agents_from (parameters : ParameterMap) (s : Rnd) :
    ℕ → ℕ → ℕ → List Agent × ℕ
  | 0, _, pos => ([], pos)
  | n + 1, i, pos =>
    let r := Agent.init i parameters s pos
    let rest := init_agents_from parameters s n (i + 1) r.2
    (r.1 :: rest.1, rest.2)

/-- `initialize_agents` of partners.cc: ids 0,1,... in container order. -/
def initialize_agents (n : ℕ) (parameters : ParameterMap) (s : Rnd) :
    List Agent × ℕ :=
  init_agents_from parameters s n 0 0

/-- `Agent::simple_infection_event` of partners.cc.  Consumes one uniform
slot only when the agent is uninfected. -/
def Agent.simple_infection_event (a : Agent)
    (prevalence_males prevalence_females : Dbl) (s : Rnd) (pos : ℕ) :
    Agent × ℕ :=
  if a.hiv = 0 then
    let prevalence := if a.sex = Sex.MALE then prevalence_females
                      else prevalence_males
    let risk := qmulD (a.force_infection_attribute *
                       a.partner_forming_attribute) prevalence
    (if ltD (s pos) risk then { a with hiv := 1 } else a, pos + 1)
  else (a, pos)

/-- `Agent::stage_advance_event` of partners.cc.  The C++ conjunction
short-circuits: the uniform slot is consumed only when hiv = 1. -/
def Agent.stage_advance_event (a : Agent) (prob_leave_acute_infection : ℚ)
    (s : Rnd) (pos : ℕ) : Agent × ℕ :=
  if a.hiv = 1 then
    (if s pos < prob_leave_acute_infection then { a with hiv := a.hiv + 1 }
     else a, pos + 1)
  else (a, pos)

/-- `Agent::age_event` of partners.cc. -/
def Agent.age_event (a : Agent) (time_elapsed : ℚ) : Agent :=
  { a with age := a.age + time_elapsed }

/-- `struct Prevalence` of partners.cc. -/
structure Prevalence where
  males_alive : ℕ
  females_alive : ℕ
  males_infected : ℕ
  females_infected : ℕ
  male_prevalence : Dbl
  female_prevalence : Dbl
deriving DecidableEq

/-- `calc_prevalence` of partners.cc: count alive and alive-infected
agents by sex over the vector, then divide (as doubles). -/
def calc_prevalence (agents : List Agent) : Prevalence :=
  let ma := agents.countP (fun a => a.alive && a.sex == Sex.MALE)
  let mi := agents.countP (fun a => a.alive && a.sex == Sex.MALE && 0 < a.hiv)
  let fa := agents.countP (fun a => a.alive && a.sex == Sex.FEMALE)
  let fi := agents.countP (fun a => a.alive && a.sex == Sex.FEMALE && 0 < a.hiv)
  { males_alive := ma, females_alive := fa,
    males_infected := mi, females_infected := fi,
    male_prevalence := ddiv (mi : ℚ) (ma : ℚ),
    female_prevalence := ddiv (fi : ℚ) (fa : ℚ) }

/-- The per-agent body of the simulation loop: an alive agent undergoes
the infection event, then the stage-advance event, then the age event;
a dead agent is skipped.  (`report` only writes output.) -/
def stepAgent (p : Prevalence) (prob_leave_acute_infection time_step : ℚ)
    (s : Rnd) (a : Agent) (pos : ℕ) : Agent × ℕ :=
  if a.alive then
    let r1 := a.simple_infection_event p.male_prevalence p.female_prevalence
                s pos
    let r2 := r1.1.stage_advance_event prob_leave_acute_infection s r1.2
    (r2.1.age_event time_step, r2.2)
  else (a, pos)

/-- The inner `for (auto & agent : agents)` loop of `simulate`: the agents
are processed in vector order, the stream position threading through. -/
def stepAgents (p : Prevalence) (prob_leave_acute_infection time_step : ℚ)
    (s : Rnd) : List Agent → ℕ → List Agent × ℕ
  | [], pos => ([], pos)
  | a :: rest, pos =>
    let r := stepAgent p prob_leave_acute_infection time_step s a pos
    let rr := stepAgents p prob_leave_acute_infection time_step s rest r.2
    (r.1 :: rr.1, rr.2)

/-- One iteration of `simulate` after the shuffle: compute the Prevalence
aggregate from the (already shuffled) vector, then run the per-agent
events with it. -/
def simulate_step (prob_leave_acute_infection time_step : ℚ) (s : Rnd)
    (agents : List Agent) (pos : ℕ) : List Agent × ℕ :=
  let p := calc_prevalence agents
  stepAgents p prob_leave_acute_infection time_step s agents pos

/-- The iteration loop of `simulate`: at iteration index i with k
iterations left, shuffle, run one step, recurse.  `shuffle i` models the
`std::shuffle` call of iteration i. -/
def simulate_loop (prob_leave_acute_infection time_step : ℚ) (s : Rnd)
    (shuffle : ℕ → List Agent → List Agent) :
    ℕ → ℕ → List Agent → ℕ → List Agent × ℕ
  | _, 0, agents, pos => (agents, pos)
  | i, k + 1, agents, pos =>
    let shuffled := shuffle i agents
    let r := simulate_step prob_leave_acute_infection time_step s shuffled pos
    simulate_loop prob_leave_acute_infection time_step s shuffle
      (i + 1) k r.1 r.2

/-- `num_iterations = num_years / time_step` of `simulate` (the C++
double-to-unsigned conversion truncates). -/
def num_iterations (parameters : ParameterMap) : ℕ :=
  (parameters "NUM_YEARS" / parameters "TIME_STEP").floor.toNat

/-- `simulate` of partners.cc (the `report` calls only write output). -/
def simulate (parameters : ParameterMap) (s : Rnd)
    (shuffle : ℕ → List Agent → List Agent) (agents : List Agent)
    (pos : ℕ) : List Agent × ℕ :=
  simulate_loop (parameters "LEAVE_ACUTE_INFECTION")
    (parameters "TIME_STEP") s shuffle 0 (num_iterations parameters)
    agents pos

/-- The number of agents with hiv > 0 (the infected count that `report`
and `summary` total up). -/
def infected_count (agents : List Agent) : ℕ :=
  agents.countP (fun a => 0 < a.hiv)

/-- The six HIV-stage buckets of `report` (`unsigned hiv[6]`), one count
per stage 0..5. -/
def stage_counts (agents : List Agent) : List ℕ :=
  [agents.countP (fun a => a.hiv == 0), agents.countP (fun a => a.hiv == 1),
   agents.countP (fun a => a.hiv == 2), agents.countP (fun a => a.hiv == 3),
   agents.countP (fun a => a.hiv == 4), agents.countP (fun a => a.hiv == 5)]

/-- A configuration with every required key set to 1 (concrete instance
for evaluation). -/
def params1 : ParameterMap := fun _ => 1

/-- A configuration with both mean-risk keys 0 and every other key 1
(the Scenario 3 configuration). -/
def params6 : ParameterMap := fun k =>
  if k = "MEAN_RISK_HET_MALE_SEX" then 0
  else if k = "MEAN_RISK_HET_FEMALE_SEX" then 0 else 1

/-- The all-zero random stream (concrete instance for evaluation). -/
def szero : Rnd := fun _ => 0

/-- A random stream whose stickiness slot (slot 3 of an init at position
0) carries the beta variate 1/4 (concrete instance for evaluation). -/
def sC1 : Rnd := fun n => if n = 3 then 1/4 else 0

/-- The identity shuffle (a permutation at every iteration). -/
def idShuffle : ℕ → List Agent → List Agent := fun _ l => l

/-- A concrete infected male agent (for evaluation). -/
def agentM : Agent :=
  { id := 0, sex := Sex.MALE, age := 20, hiv := 1, alive := true,
    partners := [],
    relationship_stickiness_attribute := 0,
    partner_forming_attribute := 0, concurrency_attribute := 0,
    sexual_drive_attribute := 0, preference_fifs_attribute := 0,
    force_infection_attribute := 0 }

/-- A concrete uninfected female agent (for evaluation). -/
def agentF : Agent :=
  { id := 1, sex := Sex.FEMALE, age := 18, hiv := 0, alive := true,
    partners := [],
    relationship_stickiness_attribute := 0,
    partner_forming_attribute := 1, concurrency_attribute := 0,
    sexual_drive_attribute := 0, preference_fifs_attribute := 0,
    force_infection_attribute := 1 }

/-- The agent that Agent::init 0 produces on the all-ones configuration
and the all-zero stream (concrete instance for evaluation). -/
def agentInit0 : Agent :=
  { id := 0, sex := Sex.MALE, age := 15, hiv := 0, alive := true,
    partners := [],
    relationship_stickiness_attribute := 0,
    partner_forming_attribute := 0, concurrency_attribute := 0,
    sexual_drive_attribute := 0, preference_fifs_attribute := 0,
    force_infection_attribute := 0 }

/-- agentInit0 after one iteration with TIME_STEP 1: aged by one step. -/
def agentAged0 : Agent := { agentInit0 with age := 16 }

/-- agentM after one iteration with the all-ones configuration: advanced
from stage 1 to stage 2 and aged by one step. -/
def agentM2 : Agent := { agentM with hiv := 2, age := 21 }

/- ### Helper lemmas about the three driven events -/

theorem simple_infection_event_fields (a : Agent) (pm pf : Dbl) (s : Rnd)
    (pos : ℕ) :
    ((a.simple_infection_event pm pf s pos).1.id = a.id ∧
     (a.simple_infection_event pm pf s pos).1.sex = a.sex ∧
     (a.simple_infection_event pm pf s pos).1.age = a.age ∧
     (a.simple_infection_event pm pf s pos).1.alive = a.alive ∧
     (a.simple_infection_event pm pf s pos).1.force_infection_attribute
       = a.force_infection_attribute ∧
     (a.simple_infection_event pm pf s pos).1.partner_forming_attribute
       = a.partner_forming_attribute) ∧
    ((a.simple_infection_event pm pf s pos).1.hiv = a.hiv ∨
     (a.hiv = 0 ∧ (a.simple_infection_event pm pf s pos).1.hiv = 1)) := by
  unfold Agent.simple_infection_event
  by_cases h0 : a.hiv = 0
  · simp only [h0, if_true]
    split_ifs <;> simp_all
  · simp [h0]

theorem stage_advance_event_fields (a : Agent) (plai : ℚ) (s : Rnd)
    (pos : ℕ) :
    ((a.stage_advance_event plai s pos).1.id = a.id ∧
     (a.stage_advance_event plai s pos).1.sex = a.sex ∧
     (a.stage_advance_event plai s pos).1.age = a.age ∧
     (a.stage_advance_event plai s pos).1.alive = a.alive ∧
     (a.stage_advance_event plai s pos).1.force_infection_attribute
       = a.force_infection_attribute ∧
     (a.stage_advance_event plai s pos).1.partner_forming_attribute
       = a.partner_forming_attribute) ∧
    ((a.stage_advance_event plai s pos).1.hiv = a.hiv ∨
     (a.hiv = 1 ∧ (a.stage_advance_event plai s pos).1.hiv = 2)) := by
  unfold Agent.stage_advance_event
  by_cases h1 : a.hiv = 1
  · simp only [h1, if_true]
    split_ifs <;> simp_all
  · simp [h1]

theorem stepAgent_fields (p : Prevalence) (plai dt : ℚ) (s : Rnd)
    (a : Agent) (pos : ℕ) :
    (stepAgent p plai dt s a pos).1.id = a.id ∧
    (stepAgent p plai dt s a pos).1.sex = a.sex ∧
    (stepAgent p plai dt s a pos).1.alive = a.alive ∧
    (stepAgent p plai dt s a pos).1.force_infection_attribute
      = a.force_infection_attribute ∧
    (stepAgent p plai dt s a pos).1.age
      = (if a.alive then a.age + dt else a.age) ∧
    ((stepAgent p plai dt s a pos).1.hiv = a.hiv ∨
     (a.hiv = 0 ∧ (stepAgent p plai dt s a pos).1.hiv = 1) ∨
     (a.hiv = 1 ∧ (stepAgent p plai dt s a pos).1.hiv = 2) ∨
     (a.hiv = 0 ∧ (stepAgent p plai dt s a pos).1.hiv = 2)) := by
  unfold stepAgent
  by_cases ha : a.alive
  · obtain ⟨⟨h1id, h1sex, h1age, h1al, h1f, h1p⟩, h1hiv⟩ :=
      simple_infection_event_fields a p.male_prevalence p.female_prevalence
        s pos
    obtain ⟨⟨h2id, h2sex, h2age, h2al, h2f, h2p⟩, h2hiv⟩ :=
      stage_advance_event_fields
        (a.simple_infection_event p.male_prevalence p.female_prevalence
          s pos).1 plai s
        (a.simple_infection_event p.male_prevalence p.female_prevalence
          s pos).2
    simp only [ha, if_true]
    refine ⟨?_, ?_, ?_, ?_, ?_, ?_⟩
    · simp [Agent.age_event, h2id, h1id]
    · simp [Agent.age_event, h2sex, h1sex]
    · simp [Agent.age_event, h2al, h1al, ha]
    · simp [Agent.age_event, h2f, h1f]
    · simp [Agent.age_event, h2age, h1age, ha]
    · rcases h2hiv with h2 | h2 <;> rcases h1hiv with h1 | h1
      · exact Or.inl (by simp [Agent.age_event, h2, h1])
      · exact Or.inr (Or.inl ⟨h1.1, by simp [Agent.age_event, h2, h1.2]⟩)
      · exact Or.inr (Or.inr (Or.inl ⟨h1.symm.trans h2.1,
          by simp [Agent.age_event, h2.2]⟩))
      · exact Or.inr (Or.inr (Or.inr ⟨h1.1,
          by simp [Agent.age_event, h2.2]⟩))
  · simp [ha]

theorem stepAgents_length (p : Prevalence) (plai dt : ℚ) (s : Rnd) :
    ∀ (l : List Agent) (pos : ℕ),
      (stepAgents p plai dt s l pos).1.length = l.length := by
  intro l
  induction l with
  | nil => intro pos; rfl
  | cons a rest ih =>
    intro pos
    simp only [stepAgents, List.length_cons]
    rw [ih]

theorem stepAgents_get (p : Prevalence) (plai dt : ℚ) (s : Rnd) :
    ∀ (l : List Agent) (pos i : ℕ) (h : i < l.length)
      (h2 : i < (stepAgents p plai dt s l pos).1.length),
      ∃ q, (stepAgents p plai dt s l pos).1.get ⟨i, h2⟩
        = (stepAgent p plai dt s (l.get ⟨i, h⟩) q).1 := by
  intro l
  induction l with
  | nil => intro pos i h; simp at h
  | cons a rest ih =>
    intro pos i h h2
    cases i with
    | zero => exact ⟨pos, rfl⟩
    | succ j =>
      have hj : j < rest.length := by
        simpa [List.length_cons] using h
      have hj2 : j < (stepAgents p plai dt s rest
          (stepAgent p plai dt s a pos).2).1.length := by
        rw [stepAgents_length]; exact hj
      obtain ⟨q, hq⟩ := ih (stepAgent p plai dt s a pos).2 j hj hj2
      exact ⟨q, hq⟩

theorem stepAgents_mem (p : Prevalence) (plai dt : ℚ) (s : Rnd) :
    ∀ (l : List Agent) (pos : ℕ) (b : Agent),
      b ∈ (stepAgents p plai dt s l pos).1 →
      ∃ a ∈ l, ∃ q, b = (stepAgent p plai dt s a q).1 := by
  intro l
  induction l with
  | nil => intro pos b hb; simp [stepAgents] at hb
  | cons a rest ih =>
    intro pos b hb
    simp only [stepAgents, List.mem_cons] at hb
    rcases hb with hb | hb
    · exact ⟨a, List.mem_cons_self a rest, pos, hb⟩
    · obtain ⟨c, hc, q, hq⟩ := ih (stepAgent p plai dt s a pos).2 b hb
      exact ⟨c, List.mem_cons_of_mem a hc, q, hq⟩

/- Under a zero force-of-infection attribute and nonnegative uniform
variates, the infection event cannot fire: the risk is 0 times the
prevalence, which is 0 (or NaN when the prevalence is a special value),
and a nonnegative draw is never below it. -/

theorem simple_infection_event_no_infect (a : Agent) (pm pf : Dbl)
    (s : Rnd) (pos : ℕ) (hf : a.force_infection_attribute = 0)
    (hs : 0 ≤ s pos) : (a.simple_infection_event pm pf s pos).1 = a := by
  unfold Agent.simple_infection_event
  by_cases h0 : a.hiv = 0
  · simp only [h0, if_true]
    have hlt : ltD (s pos) (qmulD (a.force_infection_attribute *
        a.partner_forming_attribute)
        (if a.sex = Sex.MALE then pf else pm)) = false := by
      rw [hf, zero_mul]
      rcases hc : (if a.sex = Sex.MALE then pf else pm) with _ | _ | _ | q <;>
        simp [qmulD, ltD]
      exact hs
    simp [hlt]
  · simp [h0]

theorem stepAgent_hiv_zero (p : Prevalence) (plai dt : ℚ) (s : Rnd)
    (a : Agent) (pos : ℕ) (hf : a.force_infection_attribute = 0)
    (hs : 0 ≤ s pos) (h0 : a.hiv = 0) :
    (stepAgent p plai dt s a pos).1.hiv = 0 := by
  unfold stepAgent
  by_cases ha : a.alive
  · simp only [ha, if_true]
    rw [simple_infection_event_no_infect a p.male_prevalence
      p.female_prevalence s pos hf hs]
    unfold Agent.stage_advance_event
    simp [h0, Agent.age_event]
  · simp [ha, h0]

theorem stepAgent_hiv_pos_iff (p : Prevalence) (plai dt : ℚ) (s : Rnd)
    (a : Agent) (pos : ℕ) (hf : a.force_infection_attribute = 0)
    (hs : 0 ≤ s pos) :
    (0 < (stepAgent p plai dt s a pos).1.hiv ↔ 0 < a.hiv) := by
  constructor
  · intro h
    by_contra h0
    have hz : a.hiv = 0 := by omega
    rw [stepAgent_hiv_zero p plai dt s a pos hf hs hz] at h
    exact absurd h (lt_irrefl 0)
  · intro h
    obtain ⟨-, -, -, -, -, hd⟩ := stepAgent_fields p plai dt s a pos
    rcases hd with h1 | h1 | h1 | h1 <;> omega

theorem stepAgents_infected_count (p : Prevalence) (plai dt : ℚ) (s : Rnd)
    (hs : ∀ k, 0 ≤ s k) :
    ∀ (l : List Agent) (pos : ℕ),
      (∀ a ∈ l, a.force_infection_attribute = 0) →
      infected_count (stepAgents p plai dt s l pos).1 = infected_count l := by
  intro l
  induction l with
  | nil => intro pos _; rfl
  | cons a rest ih =>
    intro pos hf
    have hifc := stepAgent_hiv_pos_iff p plai dt s a pos
      (hf a (List.mem_cons_self a rest)) (hs pos)
    have hr := ih (stepAgent p plai dt s a pos).2
      (fun b hb => hf b (List.mem_cons_of_mem a hb))
    simp only [stepAgents, infected_count, List.countP_cons] at *
    rw [hr]
    by_cases hpos : 0 < a.hiv
    · simp [hpos, hifc.mpr hpos]
    · have : ¬ 0 < (stepAgent p plai dt s a pos).1.hiv := fun hc =>
        hpos (hifc.mp hc)
      simp [hpos, this]

theorem simulate_loop_infected (plai dt : ℚ) (s : Rnd)
    (shuffle : ℕ → List Agent → List Agent) (hs : ∀ k, 0 ≤ s k)
    (hsh : ∀ i l, (shuffle i l).Perm l) :
    ∀ (k i : ℕ) (l : List Agent) (pos : ℕ),
      (∀ a ∈ l, a.force_infection_attribute = 0) →
      infected_count (simulate_loop plai dt s shuffle i k l pos).1
        = infected_count l := by
  intro k
  induction k with
  | zero => intro i l pos _; rfl
  | succ n ih =>
    intro i l pos hf
    have hperm := hsh i l
    have hf2 : ∀ a ∈ shuffle i l, a.force_infection_attribute = 0 :=
      fun a ha => hf a (hperm.mem_iff.mp ha)
    have hforce_out : ∀ b ∈ (simulate_step plai dt s (shuffle i l) pos).1,
        b.force_infection_attribute = 0 := by
      intro b hb
      obtain ⟨a, ha, q, hq⟩ := stepAgents_mem _ plai dt s _ _ b hb
      obtain ⟨-, -, -, hfb, -, -⟩ :=
        stepAgent_fields (calc_prevalence (shuffle i l)) plai dt s a q
      rw [hq, hfb]
      exact hf2 a ha
    simp only [simulate_loop]
    rw [ih (i + 1) _ _ hforce_out]
    unfold simulate_step
    rw [stepAgents_infected_count _ plai dt s hs _ pos hf2]
    exact hperm.countP_eq _

theorem simulate_loop_mem_hiv (plai dt : ℚ) (s : Rnd)
    (shuffle : ℕ → List Agent → List Agent)
    (hsh : ∀ i l, (shuffle i l).Perm l) :
    ∀ (k i : ℕ) (l : List Agent) (pos : ℕ) (b : Agent),
      b ∈ (simulate_loop plai dt s shuffle i k l pos).1 →
      ∃ a ∈ l, a.id = b.id ∧ a.hiv ≤ b.hiv := by
  intro k
  induction k with
  | zero =>
    intro i l pos b hb
    exact ⟨b, hb, rfl, le_rfl⟩
  | succ n ih =>
    intro i l pos b hb
    simp only [simulate_loop] at hb
    obtain ⟨c, hc, hcid, hchiv⟩ := ih (i + 1) _ _ b hb
    obtain ⟨a, ha, q, hq⟩ := stepAgents_mem _ plai dt s _ _ c hc
    obtain ⟨hid, -, -, -, -, hd⟩ :=
      stepAgent_fields (calc_prevalence (shuffle i l)) plai dt s a q
    refine ⟨a, (hsh i l).mem_iff.mp ha, ?_, ?_⟩
    · rw [← hcid, hq, hid]
    · have : a.hiv ≤ c.hiv := by
        rw [hq]; rcases hd with h | h | h | h <;> omega
      exact this.trans hchiv

theorem simulate_loop_alive_age (plai dt : ℚ) (s : Rnd)
    (shuffle : ℕ → List Agent → List Agent)
    (hsh : ∀ i l, (shuffle i l).Perm l) :
    ∀ (k i : ℕ) (l : List Agent) (pos : ℕ),
      (∀ a ∈ l, a.alive = true) →
      ∀ b ∈ (simulate_loop plai dt s shuffle i k l pos).1,
        b.alive = true ∧ ∃ a ∈ l, a.id = b.id ∧ b.age = a.age + k * dt := by
  intro k
  induction k with
  | zero =>
    intro i l pos hl b hb
    exact ⟨hl b hb, b, hb, rfl, by push_cast; ring⟩
  | succ n ih =>
    intro i l pos hl b hb
    simp only [simulate_loop] at hb
    have hl2 : ∀ a ∈ shuffle i l, a.alive = true :=
      fun a ha => hl a ((hsh i l).mem_iff.mp ha)
    have hlout : ∀ c ∈ (simulate_step plai dt s (shuffle i l) pos).1,
        c.alive = true := by
      intro c hc
      obtain ⟨a, ha, q, hq⟩ := stepAgents_mem _ plai dt s _ _ c hc
      obtain ⟨-, -, hal, -, -, -⟩ :=
        stepAgent_fields (calc_prevalence (shuffle i l)) plai dt s a q
      rw [hq, hal]
      exact hl2 a ha
    obtain ⟨hba, c, hc, hcid, hcage⟩ := ih (i + 1) _ _ hlout b hb
    obtain ⟨a, ha, q, hq⟩ := stepAgents_mem _ plai dt s _ _ c hc
    obtain ⟨hid, -, -, -, hage, -⟩ :=
      stepAgent_fields (calc_prevalence (shuffle i l)) plai dt s a q
    refine ⟨hba, a, (hsh i l).mem_iff.mp ha, ?_, ?_⟩
    · rw [← hcid, hq, hid]
    · have hca : c.age = a.age + dt := by
        rw [hq, hage, if_pos (hl2 a ha)]
      rw [hcage, hca]
      push_cast
      ring

theorem simulate_loop_hiv_le (plai dt : ℚ) (s : Rnd)
    (shuffle : ℕ → List Agent → List Agent)
    (hsh : ∀ i l, (shuffle i l).Perm l) :
    ∀ (k i : ℕ) (l : List Agent) (pos : ℕ),
      (∀ a ∈ l, a.hiv ≤ 5) →
      ∀ b ∈ (simulate_loop plai dt s shuffle i k l pos).1, b.hiv ≤ 5 := by
  intro k
  induction k with
  | zero => intro i l pos hl b hb; exact hl b hb
  | succ n ih =>
    intro i l pos hl b hb
    simp only [simulate_loop] at hb
    have hl2 : ∀ a ∈ shuffle i l, a.hiv ≤ 5 :=
      fun a ha => hl a ((hsh i l).mem_iff.mp ha)
    have hlout : ∀ c ∈ (simulate_step plai dt s (shuffle i l) pos).1,
        c.hiv ≤ 5 := by
      intro c hc
      obtain ⟨a, ha, q, hq⟩ := stepAgents_mem _ plai dt s _ _ c hc
      obtain ⟨-, -, -, -, -, hd⟩ :=
        stepAgent_fields (calc_prevalence (shuffle i l)) plai dt s a q
      have := hl2 a ha
      rw [hq]
      rcases hd with h | h | h | h <;> omega
    exact ih (i + 1) _ _ hlout b hb

/- ### Lemmas about initialization -/

theorem init_agents_from_mem (parameters : ParameterMap) (s : Rnd) :
    ∀ (n i pos : ℕ) (b : Agent),
      b ∈ (init_agents_from parameters s n i pos).1 →
      ∃ j q, b = (Agent.init j parameters s q).1 := by
  intro n
  induction n with
  | zero => intro i pos b hb; simp [init_agents_from] at hb
  | succ m ih =>
    intro i pos b hb
    simp only [init_agents_from, List.mem_cons] at hb
    rcases hb with hb | hb
    · exact ⟨i, pos, hb⟩
    · exact ih (i + 1) (Agent.init i parameters s pos).2 b hb

theorem Agent.init_hiv_le (i : ℕ) (parameters : ParameterMap) (s : Rnd)
    (pos : ℕ) : (Agent.init i parameters s pos).1.hiv ≤ 5 :=
  min_le_right _ _

theorem Agent.init_alive (i : ℕ) (parameters : ParameterMap) (s : Rnd)
    (pos : ℕ) : (Agent.init i parameters s pos).1.alive = true := rfl

theorem Agent.init_force_zero (i : ℕ) (parameters : ParameterMap) (s : Rnd)
    (pos : ℕ) (hm : parameters "MEAN_RISK_HET_MALE_SEX" = 0)
    (hf : parameters "MEAN_RISK_HET_FEMALE_SEX" = 0) :
    (Agent.init i parameters s pos).1.force_infection_attribute = 0 := by
  have h2 : ddiv 2 0 = Dbl.inf := by norm_num [ddiv]
  simp [Agent.init, hm, hf, h2, dsub, betaVariate]

/- ### Lemma about the report stage buckets -/

theorem stage_counts_sum (l : List Agent) (h5 : ∀ a ∈ l, a.hiv ≤ 5) :
    (stage_counts l).sum = l.length := by
  induction l with
  | nil => rfl
  | cons a rest ih =>
    have ha5 : a.hiv ≤ 5 := h5 a (List.mem_cons_self a rest)
    have ih2 := ih (fun b hb => h5 b (List.mem_cons_of_mem a hb))
    simp only [stage_counts, List.countP_cons, List.sum_cons, List.sum_nil,
      List.length_cons] at *
    have hcases : a.hiv = 0 ∨ a.hiv = 1 ∨ a.hiv = 2 ∨ a.hiv = 3 ∨
        a.hiv = 4 ∨ a.hiv = 5 := by omega
    rcases hcases with h | h | h | h | h | h <;> simp [h] <;> omega

theorem stepAgent_fst (p : Prevalence) (plai dt : ℚ) (s : Rnd) (a : Agent)
    (pos : ℕ) :
    (stepAgent p plai dt s a pos).1 =
      (if a.alive then
        ((a.simple_infection_event p.male_prevalence p.female_prevalence
            s pos).1.stage_advance_event plai s
            (a.simple_infection_event p.male_prevalence p.female_prevalence
              s pos).2).1.age_event dt
       else a) := by
  unfold stepAgent
  by_cases ha : a.alive <;> simp [ha]

theorem countP_and_le (l : List Agent) (p q : Agent → Bool) :
    l.countP (fun a => p a && q a) ≤ l.countP p := by
  induction l with
  | nil => simp
  | cons a rest ih =>
    simp only [List.countP_cons]
    cases hp : p a <;> cases hq : q a <;> simp [hp, hq] <;> omega

/- ### The claims -/

/-- C1: the claim says Agent::init assigns relationship_stickiness_attribute
as 1 minus the Beta(2, MEAN_PARTNERSHIP_TIME/TIME_STEP*2) draw, as the
source's own header comment (partners.cc lines 32-34) and
sexualModelling.md prescribe.  The code stores the raw draw instead: at a
stream whose stickiness slot carries the variate 1/4, the stored attribute
is the raw draw and differs from 1 minus the draw.  This certifies the
divergence between the code and its own documentation. -/
theorem claim_C1_stickiness_raw_draw :
    (Agent.init 0 params1 sC1 0).1.relationship_stickiness_attribute
      = betaVariate (dmul2 (ddiv (params1 "MEAN_PARTNERSHIP_TIME")
          (params1 "TIME_STEP"))) (sC1 3) ∧
    (Agent.init 0 params1 sC1 0).1.relationship_stickiness_attribute
      ≠ 1 - betaVariate (dmul2 (ddiv (params1 "MEAN_PARTNERSHIP_TIME")
          (params1 "TIME_STEP"))) (sC1 3) := by
  have hbeta : betaVariate (dmul2 (ddiv (params1 "MEAN_PARTNERSHIP_TIME")
      (params1 "TIME_STEP"))) (sC1 3) = 1/4 := by
    have hd : ddiv (params1 "MEAN_PARTNERSHIP_TIME") (params1 "TIME_STEP")
        = Dbl.val 1 := by norm_num [params1, ddiv]
    rw [hd]
    show clamp01 (sC1 3) = 1/4
    norm_num [sC1, clamp01, min_def, max_def]
  constructor
  · rfl
  · rw [show (Agent.init 0 params1 sC1 0).1.relationship_stickiness_attribute
      = betaVariate (dmul2 (ddiv (params1 "MEAN_PARTNERSHIP_TIME")
        (params1 "TIME_STEP"))) (sC1 3) from rfl, hbeta]
    norm_num

/-- C2: for an agent with hiv = 0, simple_infection_event(prevMale,
prevFemale) infects (sets hiv to 1) exactly when the uniform draw is below
force_infection_attribute * partner_forming_attribute * prevalence of the
opposite sex (prevFemale for a MALE agent, prevMale for a FEMALE agent),
and otherwise leaves the agent unchanged; for hiv > 0 the event changes
nothing, not even the stream position. -/
theorem claim_C2_simple_infection_event (a : Agent) (pm pf : ℚ) (s : Rnd)
    (pos : ℕ) :
    a.simple_infection_event (Dbl.val pm) (Dbl.val pf) s pos =
      (if a.hiv = 0 then
        (if s pos < a.force_infection_attribute *
            a.partner_forming_attribute *
            (if a.sex = Sex.MALE then pf else pm)
         then { a with hiv := 1 } else a, pos + 1)
       else (a, pos)) := by
  unfold Agent.simple_infection_event
  by_cases h0 : a.hiv = 0
  · simp only [h0, if_true]
    by_cases hm : a.sex = Sex.MALE <;> simp [hm, qmulD, ltD]
  · simp [h0]

/-- C3: stage_advance_event(pLeaveAcute) increments hiv from 1 to 2 exactly
when hiv = 1 and the uniform draw is below pLeaveAcute; for every other hiv
value (0 and 2..5 included) the event changes nothing, so simulated
progression never goes beyond stage 2. -/
theorem claim_C3_stage_advance_event (a : Agent) (plai : ℚ) (s : Rnd)
    (pos : ℕ) :
    a.stage_advance_event plai s pos =
      (if a.hiv = 1 then
        (if s pos < plai then { a with hiv := 2 } else a, pos + 1)
       else (a, pos)) := by
  unfold Agent.stage_advance_event
  by_cases h1 : a.hiv = 1 <;> simp [h1]

/-- C4: in one iteration of simulate, every agent position of the (already
shuffled) vector is updated using the one Prevalence aggregate computed
from the whole vector as it stood at the start of the step - the same
values for every agent, unaffected by the sequential updates of earlier
positions - and an alive agent undergoes exactly infection event, then
stage-advance event, then age event, while a dead agent is untouched. -/
theorem claim_C4_step_structure (plai dt : ℚ) (s : Rnd) (l : List Agent)
    (pos i : ℕ) (h : i < l.length)
    (h2 : i < (simulate_step plai dt s l pos).1.length) :
    ∃ q, (simulate_step plai dt s l pos).1.get ⟨i, h2⟩ =
      (if (l.get ⟨i, h⟩).alive then
        (((l.get ⟨i, h⟩).simple_infection_event
            (calc_prevalence l).male_prevalence
            (calc_prevalence l).female_prevalence s q).1.stage_advance_event
            plai s
            ((l.get ⟨i, h⟩).simple_infection_event
              (calc_prevalence l).male_prevalence
              (calc_prevalence l).female_prevalence s q).2).1.age_event dt
       else l.get ⟨i, h⟩) := by
  obtain ⟨q, hq⟩ := stepAgents_get (calc_prevalence l) plai dt s l pos i h h2
  refine ⟨q, ?_⟩
  rw [show (simulate_step plai dt s l pos).1.get ⟨i, h2⟩
    = (stepAgents (calc_prevalence l) plai dt s l pos).1.get ⟨i, h2⟩ from rfl]
  rw [hq, stepAgent_fst]

/-- C4 witness: the structure theorem evaluated on a concrete one-agent
vector. -/
theorem claim_C4_witness :
    ∃ q, (simulate_step 1 1 szero [agentF] 0).1.get ⟨0, by decide⟩ =
      (if agentF.alive then
        ((agentF.simple_infection_event
            (calc_prevalence [agentF]).male_prevalence
            (calc_prevalence [agentF]).female_prevalence szero
            q).1.stage_advance_event 1 szero
            (agentF.simple_infection_event
              (calc_prevalence [agentF]).male_prevalence
              (calc_prevalence [agentF]).female_prevalence szero
              q).2).1.age_event 1
       else agentF) :=
  claim_C4_step_structure 1 1 szero [agentF] 0 0 (by decide) (by decide)

/-- C5: calc_prevalence is total: a sex's infected count never exceeds its
alive count, and when a sex's alive count is zero the division is 0/0, so
that sex's prevalence field is the NaN sentinel rather than a trap. -/
theorem claim_C5_prevalence_nan_on_empty_sex (l : List Agent) :
    ((calc_prevalence l).males_infected ≤ (calc_prevalence l).males_alive ∧
     (calc_prevalence l).females_infected
       ≤ (calc_prevalence l).females_alive) ∧
    ((calc_prevalence l).males_alive = 0 →
      (calc_prevalence l).male_prevalence = Dbl.nan) ∧
    ((calc_prevalence l).females_alive = 0 →
      (calc_prevalence l).female_prevalence = Dbl.nan) := by
  have hm : (calc_prevalence l).males_infected
      ≤ (calc_prevalence l).males_alive := countP_and_le l _ _
  have hf : (calc_prevalence l).females_infected
      ≤ (calc_prevalence l).females_alive := countP_and_le l _ _
  refine ⟨⟨hm, hf⟩, ?_, ?_⟩
  · intro h0
    have hmi : (calc_prevalence l).males_infected = 0 := by omega
    show ddiv ((calc_prevalence l).males_infected : ℚ)
      ((calc_prevalence l).males_alive : ℚ) = Dbl.nan
    rw [h0, hmi]
    norm_num [ddiv]
  · intro h0
    have hfi : (calc_prevalence l).females_infected = 0 := by omega
    show ddiv ((calc_prevalence l).females_infected : ℚ)
      ((calc_prevalence l).females_alive : ℚ) = Dbl.nan
    rw [h0, hfi]
    norm_num [ddiv]

/-- C5 witness: on a vector with no males the male prevalence is NaN, and
symmetrically. -/
theorem claim_C5_witness :
    (calc_prevalence [agentF]).male_prevalence = Dbl.nan ∧
    (calc_prevalence [agentM]).female_prevalence = Dbl.nan :=
  ⟨(claim_C5_prevalence_nan_on_empty_sex [agentF]).2.1 (by decide),
   (claim_C5_prevalence_nan_on_empty_sex [agentM]).2.2 (by decide)⟩

/-- C6: with both mean-risk configuration keys zero, the force-of-infection
trait of every initialized agent is zero (the spec-modelled degenerate
beta), so the infection risk is zero at every step and the count of agents
with hiv > 0 after any run of simulate never exceeds (indeed equals) its
value at population initialization. -/
theorem claim_C6_zero_risk_no_new_infections (parameters : ParameterMap)
    (s : Rnd) (shuffle : ℕ → List Agent → List Agent) (n pos : ℕ)
    (hm : parameters "MEAN_RISK_HET_MALE_SEX" = 0)
    (hf : parameters "MEAN_RISK_HET_FEMALE_SEX" = 0)
    (hs : ∀ k, 0 ≤ s k)
    (hsh : ∀ i l, (shuffle i l).Perm l) :
    infected_count (simulate parameters s shuffle
        (initialize_agents n parameters s).1 pos).1
      ≤ infected_count (initialize_agents n parameters s).1 := by
  have hforce : ∀ a ∈ (initialize_agents n parameters s).1,
      a.force_infection_attribute = 0 := by
    intro a ha
    obtain ⟨j, q, hjq⟩ := init_agents_from_mem parameters s n 0 0 a ha
    rw [hjq]
    exact Agent.init_force_zero j parameters s q hm hf
  unfold simulate
  exact le_of_eq
    (simulate_loop_infected _ _ s shuffle hs hsh _ 0 _ pos hforce)

/-- C6 witness: the theorem evaluated on a concrete zero-risk
configuration, one agent, one iteration. -/
theorem claim_C6_witness :
    infected_count (simulate params6 szero idShuffle
        (initialize_agents 1 params6 szero).1 9).1
      ≤ infected_count (initialize_agents 1 params6 szero).1 :=
  claim_C6_zero_risk_no_new_infections params6 szero idShuffle 1 9
    (by decide) (by decide) (fun _ => le_refl 0)
    (fun _ l => List.Perm.refl l)

/-- C7: hiv is non-decreasing over the whole run: every agent of the
vector produced by simulate descends from an initial agent with the same
id and a hiv value no larger than its final one; no event of the run
lowers hiv. -/
theorem claim_C7_hiv_monotone (parameters : ParameterMap) (s : Rnd)
    (shuffle : ℕ → List Agent → List Agent) (l : List Agent) (pos : ℕ)
    (hsh : ∀ i l2, (shuffle i l2).Perm l2) :
    ∀ b ∈ (simulate parameters s shuffle l pos).1,
      ∃ a ∈ l, a.id = b.id ∧ a.hiv ≤ b.hiv := by
  intro b hb
  unfold simulate at hb
  exact simulate_loop_mem_hiv _ _ s shuffle hsh _ 0 l pos b hb

/-- C7 witness: on a concrete one-agent, one-iteration run the agent
advances from stage 1 to stage 2, and the theorem exhibits the initial
agent below the final one. -/
theorem claim_C7_witness :
    ∃ a ∈ [agentM], a.id = agentM2.id ∧ a.hiv ≤ agentM2.hiv :=
  claim_C7_hiv_monotone params1 szero idShuffle [agentM] 0
    (fun _ l => List.Perm.refl l) agentM2
    (by
      have h : (simulate params1 szero idShuffle [agentM] 0).1
          = [agentM2] := by with_unfolding_all rfl
      rw [h]
      exact List.mem_cons_self _ _)

/-- C8: every agent of the initialized population has hiv at most 5 (the
geometric draw is clamped), every agent after any run of simulate still
has hiv at most 5, and consequently the six stage buckets of report
account for every agent (the indexing hiv[agent->hiv] is in bounds). -/
theorem claim_C8_hiv_bounded (parameters : ParameterMap) (s : Rnd)
    (shuffle : ℕ → List Agent → List Agent) (n pos : ℕ)
    (hsh : ∀ i l, (shuffle i l).Perm l) :
    (∀ a ∈ (initialize_agents n parameters s).1, a.hiv ≤ 5) ∧
    (∀ b ∈ (simulate parameters s shuffle
        (initialize_agents n parameters s).1 pos).1, b.hiv ≤ 5) ∧
    (stage_counts (simulate parameters s shuffle
        (initialize_agents n parameters s).1 pos).1).sum
      = (simulate parameters s shuffle
        (initialize_agents n parameters s).1 pos).1.length := by
  have hinit : ∀ a ∈ (initialize_agents n parameters s).1, a.hiv ≤ 5 := by
    intro a ha
    obtain ⟨j, q, hjq⟩ := init_agents_from_mem parameters s n 0 0 a ha
    rw [hjq]
    exact Agent.init_hiv_le j parameters s q
  have hrun : ∀ b ∈ (simulate parameters s shuffle
      (initialize_agents n parameters s).1 pos).1, b.hiv ≤ 5 := by
    intro b hb
    unfold simulate at hb
    exact simulate_loop_hiv_le _ _ s shuffle hsh _ 0 _ pos hinit b hb
  exact ⟨hinit, hrun, stage_counts_sum _ hrun⟩

/-- C8 witness: the bucket-accounting consequence on a concrete one-agent
run. -/
theorem claim_C8_witness :
    (stage_counts (simulate params1 szero idShuffle
        (initialize_agents 1 params1 szero).1 9).1).sum
      = (simulate params1 szero idShuffle
        (initialize_agents 1 params1 szero).1 9).1.length :=
  (claim_C8_hiv_bounded params1 szero idShuffle 1 9
    (fun _ l => List.Perm.refl l)).2.2

/-- C9: from an initialized population (all agents alive, and nothing ever
kills an agent), after a run of simulate every agent is still alive and
its age is its initial age plus num_iterations times TIME_STEP - i.e. age
grows by exactly the time step in every iteration. -/
theorem claim_C9_age_increment (parameters : ParameterMap) (s : Rnd)
    (shuffle : ℕ → List Agent → List Agent) (n pos : ℕ)
    (hsh : ∀ i l, (shuffle i l).Perm l) :
    ∀ b ∈ (simulate parameters s shuffle
        (initialize_agents n parameters s).1 pos).1,
      b.alive = true ∧ ∃ a ∈ (initialize_agents n parameters s).1,
        a.id = b.id ∧ b.age = a.age +
          (num_iterations parameters : ℚ) * parameters "TIME_STEP" := by
  intro b hb
  have halive : ∀ a ∈ (initialize_agents n parameters s).1,
      a.alive = true := by
    intro a ha
    obtain ⟨j, q, hjq⟩ := init_agents_from_mem parameters s n 0 0 a ha
    rw [hjq]
    exact Agent.init_alive j parameters s q
  unfold simulate at hb
  exact simulate_loop_alive_age _ _ s shuffle hsh _ 0 _ pos halive b hb

/-- C9 witness: on a concrete one-agent, one-iteration run with
TIME_STEP = 1 the agent stays alive and ages from 15 to 16. -/
theorem claim_C9_witness :
    agentAged0.alive = true ∧
    ∃ a ∈ (initialize_agents 1 params1 szero).1,
      a.id = agentAged0.id ∧ agentAged0.age = a.age +
        (num_iterations params1 : ℚ) * params1 "TIME_STEP" :=
  claim_C9_age_increment params1 szero idShuffle 1 9
    (fun _ l => List.Perm.refl l) agentAged0
    (by
      have h : (simulate params1 szero idShuffle
          (initialize_agents 1 params1 szero).1 9).1 = [agentAged0] := by
        with_unfolding_all rfl
      rw [h]
      exact List.mem_cons_self _ _)

/-- C10: calc_prevalence is invariant under permutation of the agent
vector: permuting the vector changes none of the counts nor the
prevalences, so the per-step shuffle cannot change the prevalence fed to
that step's infection events. -/
theorem claim_C10_calc_prevalence_perm_invariant (l l2 : List Agent)
    (h : l.Perm l2) : calc_prevalence l = calc_prevalence l2 := by
  unfold calc_prevalence
  simp only [h.countP_eq]

/-- C10 witness: the invariance evaluated on a concrete two-agent swap. -/
theorem claim_C10_witness :
    calc_prevalence [agentM, agentF] = calc_prevalence [agentF, agentM] :=
  claim_C10_calc_prevalence_perm_invariant [agentM, agentF]
    [agentF, agentM] (List.Perm.swap agentF agentM [])

end Matchcmp
